import Mathlib

/-
Verification development for the Embase conference dashboard
(src/app.py).  The Python code is shallowly embedded: pandas rows become
a Lean structure whose cells are Option String (none models a NaN/NaT
cell; a present cell is modelled by its str() image), the DataFrame
becomes a list of (index label, row) pairs, and the effectful
boundaries (requests.get, open/json.dump, pd.ExcelFile) are modelled by
explicit outcome parameters and file-state values.
-/

/-- One row of the combined conference DataFrame built by
load_conference_data.  Cells other than Year are nullable; a cell is
modelled by the str() image of its pandas value, none modelling a
missing (NaN / NaT) value.  Year is always set from the sheet name. -/
structure Row where
  conferenceEvent : Option String
  conferenceLocation : Option String
  country : Option String
  startDate : Option String
  endDate : Option String
  numAbstracts : Option String
  year : String
deriving DecidableEq, Repr

/-- A raw row as read from one sheet by pd.read_excel, before the Year
column is attached and before the date columns are coerced. -/
structure RawRow where
  conferenceEvent : Option String
  conferenceLocation : Option String
  country : Option String
  startDate : Option String
  endDate : Option String
  numAbstracts : Option String
deriving DecidableEq, Repr

/-- Column names of the combined DataFrame that fuzzy_search may be
asked to scan (df[column] in the Python code). -/
inductive Col where
  | conferenceEvent
  | conferenceLocation
  | country
  | startDate
  | endDate
  | numAbstracts
  | year
deriving DecidableEq, Repr

/-- Column access df[column] on one row. -/
def getCol (r : Row) : Col → Option String
  | .conferenceEvent => r.conferenceEvent
  | .conferenceLocation => r.conferenceLocation
  | .country => r.country
  | .startDate => r.startDate
  | .endDate => r.endDate
  | .numAbstracts => r.numAbstracts
  | .year => some r.year

/-- Python str() of a nullable text cell: str(nan) = "nan". -/
def strOfCell : Option String → String
  | none => "nan"
  | some s => s

/-- Python str() of a nullable datetime cell after pd.to_datetime:
str(NaT) = "NaT". -/
def strOfDateCell : Option String → String
  | none => "NaT"
  | some s => s

/-- create_conference_id (src/app.py lines 21-27): the f-string
conf_name | start_date | location built from str(row.get(...)). -/
def create_conference_id (r : Row) : String :=
  strOfCell r.conferenceEvent ++ "|" ++ strOfDateCell r.startDate ++ "|"
    ++ strOfCell r.conferenceLocation

/-- Contents of pinned_conferences.json: either a valid JSON array of
strings, or bytes that json.load rejects (a truncated or partial
write). -/
inductive PinFile where
  | valid (keys : List String)
  | corrupt
deriving DecidableEq, Repr

/-- Outcome of the file write performed by save_pinned_conferences:
the open/dump sequence succeeds, or open itself raises (file left
untouched), or the dump raises after open("w") has truncated the
file (file left truncated/partial, i.e. corrupt). -/
inductive WriteOutcome where
  | ok
  | openFail
  | writeFail
deriving DecidableEq, Repr

/-- save_pinned_conferences (src/app.py lines 30-38).  pinned_enum
models list(pinned_data), the enumeration of the in-memory set in the
unspecified order Python set iteration produces.  The state argument is
the previous contents of pinned_conferences.json (none = no file);
the result pairs the returned Boolean with the new file state. -/
def save_pinned_conferences (pinned_enum : List String) (w : WriteOutcome)
    (fs : Option PinFile) : Bool × Option PinFile :=
  match w with
  | .ok => (true, some (.valid pinned_enum))
  | .openFail => (false, fs)
  | .writeFail => (false, some .corrupt)

/-- load_pinned_conferences (src/app.py lines 41-50): absent file gives
the empty set, a file json.load rejects gives the empty set (error
reported), a valid JSON array gives set(json.load(f)). -/
def load_pinned_conferences (fs : Option PinFile) : Finset String :=
  match fs with
  | none => ∅
  | some .corrupt => ∅
  | some (.valid keys) => keys.toFinset

/-- What happens inside the try block of download_latest_excel:
requests.get raises, or the response arrives but the open/write of
conference_list.xlsx raises after open("wb") has truncated the file,
or the response body is written out.  The status code of a delivered
response is recorded because the claim is about it. -/
inductive FetchEvent where
  | getRaises (msg : String)
  | writeRaises (status : Nat) (msg : String)
  | written (status : Nat) (content : String)
deriving DecidableEq, Repr

/-- Effect of download_latest_excel on the local conference_list.xlsx. -/
inductive FileEffect where
  | untouched
  | truncated
  | replaced (content : String)
deriving DecidableEq, Repr

/-- download_latest_excel (src/app.py lines 60-67).  The try block does
requests.get then writes response.content; any exception is caught and
reported as (False, message).  Note the code never inspects
response.status_code. -/
def download_latest_excel (ev : FetchEvent) : (Bool × String) × FileEffect :=
  match ev with
  | .getRaises msg =>
      ((false, "Error downloading file: " ++ msg), .untouched)
  | .writeRaises _ msg =>
      ((false, "Error downloading file: " ++ msg), .truncated)
  | .written _ content =>
      ((true, "Successfully downloaded the latest conference list!"),
        .replaced content)

/-- State of conference_list.xlsx as seen by load_conference_data:
absent (os.path.exists false), present but rejected by pd.ExcelFile /
pd.read_excel, or a readable workbook given as (sheet name, rows)
pairs in sheet order. -/
inductive ExcelSource where
  | absent
  | unreadable
  | workbook (sheets : List (String × List RawRow))
deriving DecidableEq, Repr

/-- Attach the Year column and coerce the date columns of the rows of
one sheet (df[Year] = sheet_name; pd.to_datetime(..., errors=coerce)
modelled by the caller-supplied coerce function, unparseable cells
becoming none). -/
def sheetToRows (coerce : Option String → Option String)
    (sheet : String × List RawRow) : List Row :=
  sheet.2.map fun raw =>
    { conferenceEvent := raw.conferenceEvent
      conferenceLocation := raw.conferenceLocation
      country := raw.country
      startDate := coerce raw.startDate
      endDate := coerce raw.endDate
      numAbstracts := raw.numAbstracts
      year := sheet.1 }

/-- load_conference_data (src/app.py lines 71-96).  Absent file:
st.error is shown and an empty DataFrame returned — modelled as ok
with the Boolean flag true recording that the data-unavailable error
was signalled.  File present but unreadable: pd.ExcelFile raises and
nothing catches it, modelled as Except.error.  Otherwise every sheet
except "Header" is read, tagged with its Year, concatenated with
ignore_index=True (rows renumbered 0..n-1), and dates are coerced;
pd.concat of an empty list raises.  The conference_id column attached
on line 94 is create_conference_id of each row. -/
def load_conference_data (coerce : Option String → Option String)
    (src : ExcelSource) : Except String (List (Nat × Row) × Bool) :=
  match src with
  | .absent => .ok ([], true)
  | .unreadable => .error "Unable to read the workbook"
  | .workbook sheets =>
      let all_data := (sheets.filter fun s => s.1 ≠ "Header").map
        (sheetToRows coerce)
      if all_data = [] then .error "No objects to concatenate"
      else .ok ((all_data.flatten).enum, false)

/-- Adding one index to the set matching_indices, modelled as a list
holding the insertion order of the Python set: already-present indices
are not added again. -/
def addIdx (acc : List Nat) (i : Nat) : List Nat :=
  if i ∈ acc then acc else acc ++ [i]

/-- Python str.lower(), modelled characterwise. -/
def lowerStr (s : String) : String := ⟨s.data.map Char.toLower⟩

/-- The inner loop of fuzzy_search for one column: valid_data =
df[column].dropna() walks the rows in index order, scores each non-null
value with the external partial-match scorer (modelled by the
caller-supplied score function), and collects the indices scoring at
least the threshold. -/
def scanColumn (score : String → String → Nat) (search_term : String)
    (threshold : Nat) (column : Col) (df : List (Nat × Row))
    (acc : List Nat) : List Nat :=
  match df with
  | [] => acc
  | p :: rest =>
      scanColumn score search_term threshold column rest
        (match getCol p.2 column with
         | none => acc
         | some v =>
             if threshold ≤ score (lowerStr search_term) (lowerStr v) then
               addIdx acc p.1
             else acc)

/-- The outer loop of fuzzy_search: for column in columns. -/
def scanColumns (score : String → String → Nat) (search_term : String)
    (threshold : Nat) (df : List (Nat × Row)) (columns : List Col)
    (acc : List Nat) : List Nat :=
  match columns with
  | [] => acc
  | c :: rest =>
      scanColumns score search_term threshold df rest
        (scanColumn score search_term threshold c df acc)

/-- fuzzy_search (src/app.py lines 99-123).  With an empty search term
it returns df.index.tolist(); otherwise it loops over the columns,
scoring every non-null cell, and returns list(matching_indices), the
matching row indices in set-insertion order.  The external scoring
function fuzz.partial sub ratio (a library call, not repository code)
is a parameter: the code only compares its Nat result against the
threshold. -/
def fuzzy_search (score : String → String → Nat) (search_term : String)
    (df : List (Nat × Row)) (columns : List Col) (threshold : Nat) :
    List Nat :=
  if search_term = "" then df.map Prod.fst
  else scanColumns score search_term threshold df columns []

/-- Step 1 of the tab1 filter pipeline (src/app.py lines 203-211):
when the search text is non-empty, filtered_df.loc[matching_indices]
keeps the rows whose index fuzzy_search returned, in the order of that
list (every returned index labels a unique row of the frame). -/
def tab1_search_step (score : String → String → Nat)
    (df : List (Nat × Row)) (search_text : String) (threshold : Nat) :
    List (Nat × Row) :=
  if search_text ≠ "" then
    (fuzzy_search score search_text df
        [Col.conferenceEvent, Col.conferenceLocation] threshold).filterMap
      (fun i => df.find? fun p => p.1 = i)
  else df

/-- Step 2 of the pipeline (src/app.py lines 213-214): boolean-mask
filter on the Country column; equality with a NaN country is False. -/
def tab1_country_step (df1 : List (Nat × Row)) (selected_country : String) :
    List (Nat × Row) :=
  if selected_country ≠ "All" then
    df1.filter fun p => p.2.country = some selected_country
  else df1

/-- Step 3 of the pipeline (src/app.py lines 216-217): boolean-mask
filter on the Year column. -/
def tab1_year_step (df2 : List (Nat × Row)) (selected_year : String) :
    List (Nat × Row) :=
  if selected_year ≠ "All" then
    df2.filter fun p => p.2.year = selected_year
  else df2

/-- The full tab1 filter pipeline (src/app.py lines 201-217). -/
def tab1_filter (score : String → String → Nat) (df : List (Nat × Row))
    (search_text : String) (threshold : Nat)
    (selected_country selected_year : String) : List (Nat × Row) :=
  tab1_year_step
    (tab1_country_step (tab1_search_step score df search_text threshold)
      selected_country)
    selected_year

/-- The pin reconciliation of tab1 (src/app.py lines 269-273).
visible is the edited grid: one (conference_id, Pin flag) pair per
currently displayed (filtered) row.  current_pinned collects the ids
of the rows whose Pin box is checked, and when that differs from the
session pinned set it becomes the new pinned set and is saved. -/
def tab1_reconcile (prev : Finset String)
    (visible : List (String × Bool)) : Finset String :=
  let current_pinned := ((visible.filter fun p => p.2).map Prod.fst).toFinset
  if current_pinned ≠ prev then current_pinned else prev

/-- Membership in the accumulator after one set.add. -/
theorem mem_addIdx {acc : List Nat} {i j : Nat} :
    j ∈ addIdx acc i ↔ j ∈ acc ∨ j = i := by
  unfold addIdx
  by_cases h : i ∈ acc
  · rw [if_pos h]
    constructor
    · exact Or.inl
    · rintro (hj | rfl)
      · exact hj
      · exact h
  · rw [if_neg h]
    simp [List.mem_append]

/-- Characterisation of the per-column scan: an index is collected iff
it was already collected or some row of the frame carries that index
with a non-null value in the column scoring at least the threshold. -/
theorem mem_scanColumn (score : String → String → Nat) (q : String)
    (t : Nat) (col : Col) (df : List (Nat × Row)) (acc : List Nat)
    (j : Nat) :
    j ∈ scanColumn score q t col df acc ↔
      j ∈ acc ∨ ∃ r, (j, r) ∈ df ∧ ∃ v, getCol r col = some v ∧
        t ≤ score (lowerStr q) (lowerStr v) := by
  induction df generalizing acc with
  | nil => simp [scanColumn]
  | cons p df ih =>
      obtain ⟨i, r0⟩ := p
      show j ∈ scanColumn score q t col df _ ↔ _
      cases hc : getCol r0 col with
      | none =>
          simp only [hc]
          rw [ih]
          constructor
          · rintro (h | ⟨r, hr, hv⟩)
            · exact Or.inl h
            · exact Or.inr ⟨r, List.mem_cons_of_mem _ hr, hv⟩
          · rintro (h | ⟨r, hr, v, hv, hs⟩)
            · exact Or.inl h
            · rcases List.mem_cons.mp hr with heq | hr2
              · injection heq with h1 h2
                subst h1; subst h2
                rw [hc] at hv
                cases hv
              · exact Or.inr ⟨r, hr2, v, hv, hs⟩
      | some v0 =>
          simp only [hc]
          by_cases hs : t ≤ score (lowerStr q) (lowerStr v0)
          · rw [if_pos hs, ih]
            constructor
            · rintro (h | ⟨r, hr, hv⟩)
              · rcases mem_addIdx.mp h with h2 | rfl
                · exact Or.inl h2
                · exact Or.inr ⟨r0, List.mem_cons_self _ _, v0, hc, hs⟩
              · exact Or.inr ⟨r, List.mem_cons_of_mem _ hr, hv⟩
            · rintro (h | ⟨r, hr, v, hv, hs2⟩)
              · exact Or.inl (mem_addIdx.mpr (Or.inl h))
              · rcases List.mem_cons.mp hr with heq | hr2
                · injection heq with h1 h2
                  subst h1; subst h2
                  exact Or.inl (mem_addIdx.mpr (Or.inr rfl))
                · exact Or.inr ⟨r, hr2, v, hv, hs2⟩
          · rw [if_neg hs, ih]
            constructor
            · rintro (h | ⟨r, hr, hv⟩)
              · exact Or.inl h
              · exact Or.inr ⟨r, List.mem_cons_of_mem _ hr, hv⟩
            · rintro (h | ⟨r, hr, v, hv, hs2⟩)
              · exact Or.inl h
              · rcases List.mem_cons.mp hr with heq | hr2
                · injection heq with h1 h2
                  subst h1; subst h2
                  rw [hc] at hv
                  injection hv with h3
                  subst h3
                  exact absurd hs2 hs
                · exact Or.inr ⟨r, hr2, v, hv, hs2⟩

/-- Characterisation of the full column loop. -/
theorem mem_scanColumns (score : String → String → Nat) (q : String)
    (t : Nat) (df : List (Nat × Row)) (cols : List Col) (acc : List Nat)
    (j : Nat) :
    j ∈ scanColumns score q t df cols acc ↔
      j ∈ acc ∨ ∃ c ∈ cols, ∃ r, (j, r) ∈ df ∧ ∃ v, getCol r c = some v ∧
        t ≤ score (lowerStr q) (lowerStr v) := by
  induction cols generalizing acc with
  | nil => simp [scanColumns]
  | cons c rest ih =>
      show j ∈ scanColumns score q t df rest _ ↔ _
      rw [ih, mem_scanColumn]
      constructor
      · rintro ((h | ⟨r, hr, hv⟩) | ⟨c2, hc2, hrest⟩)
        · exact Or.inl h
        · exact Or.inr ⟨c, List.mem_cons_self _ _, r, hr, hv⟩
        · exact Or.inr ⟨c2, List.mem_cons_of_mem _ hc2, hrest⟩
      · rintro (h | ⟨c2, hc2, hrest⟩)
        · exact Or.inl (Or.inl h)
        · rcases List.mem_cons.mp hc2 with rfl | hc3
          · exact Or.inl (Or.inr hrest)
          · exact Or.inr ⟨c2, hc3, hrest⟩

/-- Characterisation of fuzzy_search for a non-empty search term. -/
theorem mem_fuzzy_search (score : String → String → Nat) (q : String)
    (df : List (Nat × Row)) (cols : List Col) (t : Nat) (j : Nat)
    (hq : q ≠ "") :
    j ∈ fuzzy_search score q df cols t ↔
      ∃ c ∈ cols, ∃ r, (j, r) ∈ df ∧ ∃ v, getCol r c = some v ∧
        t ≤ score (lowerStr q) (lowerStr v) := by
  unfold fuzzy_search
  rw [if_neg hq, mem_scanColumns]
  simp

/-- With an empty search term fuzzy_search is df.index.tolist(). -/
theorem fuzzy_search_of_empty (score : String → String → Nat)
    (df : List (Nat × Row)) (cols : List Col) (t : Nat) :
    fuzzy_search score "" df cols t = df.map Prod.fst := by
  unfold fuzzy_search
  rw [if_pos rfl]

/-- Example row used by concrete witnesses: a single non-null
searchable cell. -/
def rowA : Row :=
  { conferenceEvent := some "EuroConf"
    conferenceLocation := none
    country := some "France"
    startDate := some "2024-05-01 00:00:00"
    endDate := none
    numAbstracts := none
    year := "2024" }

/-- Example row used by concrete witnesses: null in both searchable
columns. -/
def rowNull : Row :=
  { conferenceEvent := none
    conferenceLocation := none
    country := some "France"
    startDate := some "2024-05-01 00:00:00"
    endDate := none
    numAbstracts := none
    year := "2024" }

/-- C6: for every table, list of searchable columns and threshold,
fuzzy_search with the empty query returns the keys (index labels) of
all rows of the table. -/
theorem fuzzy_search_empty_query (score : String → String → Nat)
    (df : List (Nat × Row)) (cols : List Col) (t : Nat) :
    fuzzy_search score "" df cols t = df.map Prod.fst := by
  unfold fuzzy_search
  rw [if_pos rfl]

/-- C7: for a non-empty query and thresholds t2 le t1, every index in
the fuzzy_search result at threshold t1 is in the result at threshold
t2; with t1 = 100 this gives that the result at 100 is a subset of the
result at any lower threshold. -/
theorem fuzzy_search_threshold_mono (score : String → String → Nat)
    (q : String) (df : List (Nat × Row)) (cols : List Col) (t1 t2 : Nat)
    (hq : q ≠ "") (ht : t2 ≤ t1) :
    ∀ i ∈ fuzzy_search score q df cols t1,
      i ∈ fuzzy_search score q df cols t2 := by
  intro i hi
  rw [mem_fuzzy_search score q df cols t1 i hq] at hi
  rw [mem_fuzzy_search score q df cols t2 i hq]
  obtain ⟨c, hc, r, hr, v, hv, hs⟩ := hi
  exact ⟨c, hc, r, hr, v, hv, le_trans ht hs⟩

/-- Witness for C7 at a concrete table, scorer and threshold pair. -/
theorem fuzzy_search_threshold_mono_witness :
    0 ∈ fuzzy_search (fun _ _ => 100) "euro" [(0, rowA)]
      [Col.conferenceEvent] 50 :=
  fuzzy_search_threshold_mono (fun _ _ => 100) "euro" [(0, rowA)]
    [Col.conferenceEvent] 100 50 (by decide) (by decide) 0 (by decide)

/-- C10: a row that is null in every searched column is excluded from
the fuzzy_search result for any non-empty query at any threshold
(zero included), while the empty query does return its key; hence the
non-empty-query result differs from the full index list. -/
theorem fuzzy_search_all_null_excluded (score : String → String → Nat)
    (q : String) (df : List (Nat × Row)) (cols : List Col) (t : Nat)
    (i : Nat) (r : Row) (hq : q ≠ "") (hmem : (i, r) ∈ df)
    (hnull : ∀ r2, (i, r2) ∈ df → ∀ c ∈ cols, getCol r2 c = none) :
    i ∉ fuzzy_search score q df cols t ∧
    i ∈ fuzzy_search score "" df cols t ∧
    fuzzy_search score q df cols t ≠ fuzzy_search score "" df cols t := by
  have h1 : i ∉ fuzzy_search score q df cols t := by
    intro h
    rw [mem_fuzzy_search score q df cols t i hq] at h
    obtain ⟨c, hc, r2, hr2, v, hv, _⟩ := h
    rw [hnull r2 hr2 c hc] at hv
    cases hv
  have h2 : i ∈ fuzzy_search score "" df cols t := by
    rw [fuzzy_search_of_empty]
    exact List.mem_map.mpr ⟨(i, r), hmem, rfl⟩
  exact ⟨h1, h2, fun heq => h1 (heq ▸ h2)⟩

/-- Witness for C10: a one-row table whose row is null in both
searched columns, threshold 0. -/
theorem fuzzy_search_all_null_excluded_witness :
    0 ∉ fuzzy_search (fun _ _ => 100) "x" [(0, rowNull)]
      [Col.conferenceEvent, Col.conferenceLocation] 0 ∧
    0 ∈ fuzzy_search (fun _ _ => 100) "" [(0, rowNull)]
      [Col.conferenceEvent, Col.conferenceLocation] 0 ∧
    fuzzy_search (fun _ _ => 100) "x" [(0, rowNull)]
        [Col.conferenceEvent, Col.conferenceLocation] 0 ≠
      fuzzy_search (fun _ _ => 100) "" [(0, rowNull)]
        [Col.conferenceEvent, Col.conferenceLocation] 0 :=
  fuzzy_search_all_null_excluded (fun _ _ => 100) "x" [(0, rowNull)]
    [Col.conferenceEvent, Col.conferenceLocation] 0 0 rowNull
    (by decide) (by decide)
    (by
      intro r2 hr2 c hc
      have h := List.mem_singleton.mp hr2
      injection h with h1 h2
      subst h2
      rcases List.mem_cons.mp hc with rfl | hc2
      · rfl
      · rcases List.mem_cons.mp hc2 with rfl | hc3
        · rfl
        · exact absurd hc3 (List.not_mem_nil c))

/-- C8: the identity key is a pure function of the stringified name,
start date and location — equal stringified triples give equal keys,
whatever the other fields — and equals name | start date | location. -/
theorem create_conference_id_key (r1 r2 : Row)
    (hn : strOfCell r1.conferenceEvent = strOfCell r2.conferenceEvent)
    (hd : strOfDateCell r1.startDate = strOfDateCell r2.startDate)
    (hl : strOfCell r1.conferenceLocation = strOfCell r2.conferenceLocation) :
    create_conference_id r1 = create_conference_id r2 ∧
    create_conference_id r1 =
      strOfCell r1.conferenceEvent ++ "|" ++ strOfDateCell r1.startDate
        ++ "|" ++ strOfCell r1.conferenceLocation := by
  refine ⟨?_, rfl⟩
  unfold create_conference_id
  rw [hn, hd, hl]

/-- Witness for C8: two rows agreeing on name, start date and location
but differing in country, end date, abstract count and year. -/
theorem create_conference_id_key_witness :
    create_conference_id
        { conferenceEvent := some "EuroConf"
          conferenceLocation := some "Paris"
          country := some "France"
          startDate := some "2024-05-01 00:00:00"
          endDate := none
          numAbstracts := some "10"
          year := "2024" } =
      create_conference_id
        { conferenceEvent := some "EuroConf"
          conferenceLocation := some "Paris"
          country := some "Germany"
          startDate := some "2024-05-01 00:00:00"
          endDate := some "2024-05-03 00:00:00"
          numAbstracts := none
          year := "2025" } ∧
    create_conference_id
        { conferenceEvent := some "EuroConf"
          conferenceLocation := some "Paris"
          country := some "France"
          startDate := some "2024-05-01 00:00:00"
          endDate := none
          numAbstracts := some "10"
          year := "2024" } =
      "EuroConf" ++ "|" ++ "2024-05-01 00:00:00" ++ "|" ++ "Paris" :=
  create_conference_id_key _ _ rfl rfl rfl

/-- C9: if saving an enumeration of the pinned set S succeeds, loading
the resulting file returns exactly S. -/
theorem save_load_round_trip (S : Finset String) (enum : List String)
    (w : WriteOutcome) (fs : Option PinFile)
    (henum : enum.toFinset = S)
    (hsucc : (save_pinned_conferences enum w fs).1 = true) :
    load_pinned_conferences (save_pinned_conferences enum w fs).2 = S := by
  cases w with
  | ok => simpa [save_pinned_conferences, load_pinned_conferences] using henum
  | openFail => simp [save_pinned_conferences] at hsucc
  | writeFail => simp [save_pinned_conferences] at hsucc

/-- Witness for C9 at a concrete two-element pinned set. -/
theorem save_load_round_trip_witness :
    load_pinned_conferences
        (save_pinned_conferences ["k1", "k2"] .ok none).2 =
      ({"k1", "k2"} : Finset String) :=
  save_load_round_trip {"k1", "k2"} ["k1", "k2"] .ok none
    (by decide) (by decide)

/-- C4 (amended): save returns a success or failure Boolean rather
than raising; on success it fully overwrites the persisted file; a
failure of open leaves the previous file intact; but a failure during
the dump leaves the file truncated or partial — there is no
write-to-temp-then-replace, so the previous state is not recoverable
in that case. -/
theorem save_pinned_behavior (enum : List String) (fs : Option PinFile) :
    save_pinned_conferences enum .ok fs = (true, some (.valid enum)) ∧
    save_pinned_conferences enum .openFail fs = (false, fs) ∧
    save_pinned_conferences enum .writeFail fs = (false, some .corrupt) :=
  ⟨rfl, rfl, rfl⟩

/-- C4 counterexample: a save that fails during the dump reports
failure but destroys the previously persisted pinned set, which a
subsequent load can no longer recover. -/
theorem save_pinned_atomicity_cex :
    (save_pinned_conferences ["a"] .writeFail (some (.valid ["b"]))).1
        = false ∧
    (save_pinned_conferences ["a"] .writeFail (some (.valid ["b"]))).2
        ≠ some (.valid ["b"]) ∧
    load_pinned_conferences
        (save_pinned_conferences ["a"] .writeFail (some (.valid ["b"]))).2
        ≠ load_pinned_conferences (some (.valid ["b"])) := by
  refine ⟨rfl, by decide, by decide⟩

/-- C5 (amended): with the workbook file absent the loader returns the
empty table and signals the data-unavailable condition without
raising; but with the file present and unreadable the exception from
the Excel reader propagates past the load boundary. -/
theorem load_conference_data_amended
    (coerce : Option String → Option String) :
    load_conference_data coerce .absent = .ok ([], true) ∧
    load_conference_data coerce .unreadable =
      .error "Unable to read the workbook" :=
  ⟨rfl, rfl⟩

/-- C5 counterexample: an unreadable workbook file makes the loader
raise instead of returning an empty table. -/
theorem load_conference_data_unreadable_cex :
    load_conference_data (fun v => v) .unreadable =
      .error "Unable to read the workbook" ∧
    load_conference_data (fun v => v) .unreadable ≠ .ok ([], true) :=
  ⟨rfl, fun h => Except.noConfusion h⟩

/-- C3: evaluation at the failing input.  A delivered non-200 response
is not detected as a failure: the function reports success and
overwrites the local spreadsheet with the error body, where the claim
requires (False, message) and an untouched local file. -/
theorem download_latest_excel_non200 :
    download_latest_excel (.written 404 "<html>Not Found</html>") =
      ((true, "Successfully downloaded the latest conference list!"),
        .replaced "<html>Not Found</html>") :=
  rfl

/-- C1: evaluation at the failing input.  With previous pinned set
a, b and only the row of a visible (b filtered out, no edits made),
the reconciliation replaces the pinned set by the checked visible keys
and silently drops b, where the claim requires b to stay pinned. -/
theorem tab1_reconcile_drops_hidden :
    tab1_reconcile {"a", "b"} [("a", true)] = {"a"} ∧
    "b" ∈ ({"a", "b"} : Finset String) ∧
    "b" ∉ ([("a", true)] : List (String × Bool)).map Prod.fst ∧
    "b" ∉ tab1_reconcile {"a", "b"} [("a", true)] := by
  decide

/-- Every row surviving the search step is a row of the input frame. -/
theorem mem_tab1_search_step (score : String → String → Nat)
    (df : List (Nat × Row)) (q : String) (t : Nat) (p : Nat × Row)
    (hp : p ∈ tab1_search_step score df q t) : p ∈ df := by
  unfold tab1_search_step at hp
  by_cases hq : q ≠ ""
  · rw [if_pos hq] at hp
    obtain ⟨i, _, hfind⟩ := List.mem_filterMap.mp hp
    exact List.mem_of_find?_eq_some hfind
  · rwa [if_neg hq] at hp

/-- With an empty search text the search step is the identity. -/
theorem tab1_search_step_of_empty (score : String → String → Nat)
    (df : List (Nat × Row)) (t : Nat) :
    tab1_search_step score df "" t = df := by
  unfold tab1_search_step
  simp

/-- The country step keeps a subsequence of its input. -/
theorem tab1_country_step_sublist (df1 : List (Nat × Row)) (c : String) :
    (tab1_country_step df1 c).Sublist df1 := by
  unfold tab1_country_step
  split
  · exact List.filter_sublist df1
  · exact List.Sublist.refl df1

/-- The year step keeps a subsequence of its input. -/
theorem tab1_year_step_sublist (df2 : List (Nat × Row)) (y : String) :
    (tab1_year_step df2 y).Sublist df2 := by
  unfold tab1_year_step
  split
  · exact List.filter_sublist df2
  · exact List.Sublist.refl df2

/-- C2 (amended): every record the pipeline returns is a record of the
input table; and when the query is empty the surviving rows form a
subsequence of the input table (relative order preserved).  With a
non-empty query the rows are emitted in the collection order of the
fuzzy-search index set, which need not follow the table order. -/
theorem tab1_filter_amended (score : String → String → Nat)
    (df : List (Nat × Row)) (q : String) (t : Nat) (c y : String) :
    (∀ p ∈ tab1_filter score df q t c y, p ∈ df) ∧
    (q = "" → (tab1_filter score df q t c y).Sublist df) := by
  constructor
  · intro p hp
    unfold tab1_filter at hp
    have h2 := (tab1_year_step_sublist _ y).subset hp
    have h3 := (tab1_country_step_sublist _ c).subset h2
    exact mem_tab1_search_step score df q t p h3
  · intro hq
    subst hq
    unfold tab1_filter
    rw [tab1_search_step_of_empty]
    exact ((tab1_year_step_sublist _ y).trans
      (tab1_country_step_sublist df c))

/-- Witness for C2 (amended) at a concrete table and empty query. -/
theorem tab1_filter_amended_witness :
    (0, rowA) ∈ [(0, rowA)] ∧
    (tab1_filter (fun _ _ => 100) [(0, rowA)] "" 80 "All" "All").Sublist
      [(0, rowA)] :=
  ⟨(tab1_filter_amended (fun _ _ => 100) [(0, rowA)] "" 80 "All" "All").1
      (0, rowA) (by decide),
   (tab1_filter_amended (fun _ _ => 100) [(0, rowA)] "" 80 "All" "All").2
      rfl⟩

/-- Concrete scorer for the order counterexample: full score exactly
when the lowercased query equals the lowercased value (a special case
of partial-match scoring: an exact occurrence scores 100). -/
def cexScore (q v : String) : Nat := if q = v then 100 else 0

/-- A conference row with the given name and location cells and all
other nullable cells null. -/
def plainRow (ev loc : Option String) : Row :=
  { conferenceEvent := ev
    conferenceLocation := loc
    country := none
    startDate := none
    endDate := none
    numAbstracts := none
    year := "2024" }

/-- Order counterexample table: nine rows with indices 0..8; the query
zz occurs in the name of row 8 and in the location of row 0 only.
Scanning the name column first inserts 8 into the match set, scanning
the location column then inserts 0, and the iteration of a CPython int
set over a table of this size yields 8 before 0. -/
def cexDf : List (Nat × Row) :=
  [(0, plainRow (some "e0") (some "zz")),
   (1, plainRow (some "e1") none),
   (2, plainRow (some "e2") none),
   (3, plainRow (some "e3") none),
   (4, plainRow (some "e4") none),
   (5, plainRow (some "e5") none),
   (6, plainRow (some "e6") none),
   (7, plainRow (some "e7") none),
   (8, plainRow (some "zz") none)]

/-- C2 counterexample: with the query zz at threshold 100 the pipeline
returns row 8 before row 0, so the output is not a subsequence of the
input table — the claimed relative-order preservation fails. -/
theorem tab1_filter_order_cex :
    (tab1_filter cexScore cexDf "zz" 100 "All" "All").map Prod.fst
        = [8, 0] ∧
    ¬ ((tab1_filter cexScore cexDf "zz" 100 "All" "All").map
        Prod.fst).Sublist (cexDf.map Prod.fst) := by
  have hmap : (tab1_filter cexScore cexDf "zz" 100 "All" "All").map
      Prod.fst = [8, 0] := by decide
  refine ⟨hmap, fun h => ?_⟩
  rw [hmap] at h
  have hpw : (([8, 0] : List Nat)).Pairwise (· < ·) :=
    List.Pairwise.sublist h (by decide)
  exact absurd hpw (by decide)
